import Mathlib

/-!
# Verification of `useZodFormValidator` (src/useZodFormValidator.ts)

Shallow embedding of the Vue/Zod form-validator composable.  JavaScript
objects are modelled as association lists with first-match lookup and
JS-assignment update (replace in place when the key exists, append
otherwise).  The Zod schema library is modelled at its interface: a
per-field rule is a function from a JS value to either the first issue
message (`Except.error`) or the coerced output (`Except.ok`); the
whole-object parse runs every field of the shape against the values map,
collecting one issue per failing field, exactly as the composable
observes Zod behaving (first message per field, coerced `data` on
success, unknown keys stripped).
-/

namespace ZodForm

/-- JS runtime values as the form code distinguishes them: strings,
(integer) numbers, booleans and `undefined`.  `!==` on these primitives
is decidable equality. -/
inductive JsValue where
  | str : String → JsValue
  | num : Int → JsValue
  | bool : Bool → JsValue
  | undefined : JsValue
deriving DecidableEq, Repr

/-- An entry of the `errors` map: the TS type is `boolean | string`. -/
inductive ErrVal where
  | bool : Bool → ErrVal
  | str : String → ErrVal
deriving DecidableEq, Repr

/-- The JS test `typeof value === 'string'`. -/
def ErrVal.isString : ErrVal → Bool
  | .str _ => true
  | .bool _ => false

/-- JS truthiness of a `boolean | string` value: `true`, or a non-empty
string. -/
def ErrVal.jsTruthy : ErrVal → Bool
  | .bool b => b
  | .str s => s ≠ ""

/-- A JS object with string keys, in insertion order. -/
abbrev JsObj (α : Type) : Type := List (String × α)

namespace JsObj

/-- Lookup `obj[k]`; `none` when the key is absent (JS: `undefined`). -/
def get? {α} (o : JsObj α) (k : String) : Option α :=
  match o with
  | [] => none
  | (k', v) :: rest => if k' = k then some v else get? rest k

/-- Membership `k in obj`. -/
def hasKey {α} (o : JsObj α) (k : String) : Bool :=
  (o.get? k).isSome

/-- Assignment `obj[k] = v`: replace in place when the key exists, append
otherwise. -/
def set {α} (o : JsObj α) (k : String) (v : α) : JsObj α :=
  match o with
  | [] => [(k, v)]
  | (k', v') :: rest => if k' = k then (k, v) :: rest else (k', v') :: set rest k v

/-- The list `Object.keys(obj)`. -/
def keys {α} (o : JsObj α) : List String :=
  (o : List (String × α)).map Prod.fst

/-- The list `Object.values(obj)`. -/
def values {α} (o : JsObj α) : List α :=
  (o : List (String × α)).map Prod.snd

end JsObj

/-- Lookup `obj[k]` with the JS default: `undefined` when the key is absent. -/
def getJs (o : JsObj JsValue) (k : String) : JsValue :=
  (o.get? k).getD .undefined

/-- Whether `l.findIndex(p) === -1`, modelled as `(l.findIdx? p).isNone`. -/
def findIndexIsMinusOne {α} (l : List α) (p : α → Bool) : Bool :=
  (l.findIdx? p).isNone

/-! ## The Zod interface, as the composable uses it -/

/-- A per-field Zod rule.  `safeParse` yields the coerced output on
success and the first issue's message (`result.error.issues[0].message`)
on failure — the only part of a failed field parse the composable reads. -/
structure FieldRule where
  safeParse : JsValue → Except String JsValue

instance : Inhabited FieldRule := ⟨⟨fun v => .ok v⟩⟩

/-- One entry of `error.issues` from a whole-object parse. -/
structure Issue where
  path : List String
  message : String
deriving DecidableEq, Repr

/-- The shape table of a `z.object` schema: field name → rule. -/
abbrev Shape : Type := JsObj FieldRule

/-- The per-field parse results of a whole-object parse: each field of
the shape against the values map (`undefined` when the key is missing). -/
def fieldResults (shape : Shape) (values : JsObj JsValue) :
    List (String × Except String JsValue) :=
  shape.map (fun p => (p.1, p.2.safeParse (getJs values p.1)))

/-- The `error.issues` a whole-object parse reports: one issue per
failing field, in shape order, with `path = [name]`. -/
def issuesOf (shape : Shape) (values : JsObj JsValue) : List Issue :=
  (fieldResults shape values).foldr
    (fun p acc =>
      match p.2 with
      | .error msg => { path := [p.1], message := msg } :: acc
      | .ok _ => acc)
    []

/-- Whole-object `safeParse` of a DEFAULT-policy object schema, such as
the `z.object(toValue(schema))` that `getSanitizedValues` rebuilds:
fails with the issue list when any field fails; on success `data` holds
the coerced value of every field, with unknown input keys stripped
(Zod's default). -/
def parseAll (shape : Shape) (values : JsObj JsValue) :
    Except (List Issue) (JsObj JsValue) :=
  if (issuesOf shape values).isEmpty then
    .ok ((fieldResults shape values).filterMap (fun p =>
      match p.2 with
      | .ok v => some (p.1, v)
      | .error _ => none))
  else
    .error (issuesOf shape values)

/-- The unknown-keys policy of a `z.ZodObject`: `strip` (the default),
`.passthrough()` or `.strict()`.  All three are `instanceof z.ZodObject`
and accepted by the composable's constructor. -/
inductive UnknownKeysPolicy where
  | strip
  | passthrough
  | strict
deriving DecidableEq, Repr

/-- A `z.ZodObject` as the composable receives it: its shape table plus
its unknown-keys policy (which `validationSchema.safeParse` honours but
the rebuilt `z.object(shape)` in `getSanitizedValues` does not carry
over). -/
structure ZodObjectSchema where
  shape : Shape
  unknownKeys : UnknownKeysPolicy

/-- The single issue Zod adds in strict mode for unknown input keys
(message shape approximated; no claim depends on its exact text). -/
def unrecognizedKeysIssue (ks : List String) : Issue :=
  { path := [], message := "Unrecognized key(s) in object: " ++ String.intercalate ", " ks }

/-- Whole-object `safeParse` of the ORIGINAL `validationSchema`
(`z.ZodObject`), honouring its unknown-keys policy: `strip` behaves like
the rebuilt default object; `passthrough` additionally keeps unknown
input keys (in input order, after the shape's fields); `strict` fails on
any unknown input key. -/
def parseObject : ZodObjectSchema → JsObj JsValue → Except (List Issue) (JsObj JsValue)
  | ⟨shape, .strip⟩, values => parseAll shape values
  | ⟨shape, .passthrough⟩, values =>
      match parseAll shape values with
      | .error issues => .error issues
      | .ok data => .ok (data ++ values.filter (fun p => !(shape.hasKey p.1)))
  | ⟨shape, .strict⟩, values =>
      let extras := values.keys.filter (fun k => !(shape.hasKey k))
      match parseAll shape values with
      | .error issues =>
          .error (if extras.isEmpty then issues
                  else issues ++ [unrecognizedKeysIssue extras])
      | .ok data =>
          if extras.isEmpty then .ok data
          else .error [unrecognizedKeysIssue extras]

/-! ## The composable's state and operations -/

/-- The `errors` ref's content: field name (or dotted path) →
`boolean | string`. -/
abbrev ErrorsMap : Type := JsObj ErrVal

/-- The derived `isValid` computed:
`Object.values(errors.value).findIndex((value) => typeof value === 'string' || value === true) === -1`. -/
def isValidRead (errors : ErrorsMap) : Bool :=
  findIndexIsMinusOne errors.values (fun v => v.isString || v == ErrVal.bool true)

/-- The `isValid` field computed inside `validate()`:
`Object.values(errors.value).findIndex((value) => typeof value === 'string' || value) === -1`
— note the second disjunct is plain truthiness here, not `=== true`. -/
def validateIsValid (errors : ErrorsMap) : Bool :=
  findIndexIsMinusOne errors.values (fun v => v.isString || v.jsTruthy)

/-- The error entry `handleInputBlur`/`validateProperty` writes:
`!result.success && result.error ? result.error.issues[0].message : false`. -/
def ruleOutcome (rule : FieldRule) (value : JsValue) : ErrVal :=
  match rule.safeParse value with
  | .error msg => ErrVal.str msg
  | .ok _ => ErrVal.bool false

/-- A blur event's `target`, as `handleInputBlur` reads it: its `name`
attribute (`""` models an absent/empty name, both falsy) and its
`value`. -/
structure EventTarget where
  name : String
  value : JsValue
deriving DecidableEq, Repr

/-- The argument of `handleInputBlur`: a plain string, or an event-like
object whose `target` may be missing (`none` models a falsy `e.target`). -/
inductive Trigger where
  | str : String → Trigger
  | event : Option EventTarget → Trigger
deriving DecidableEq, Repr

/-- Member names the JS `in` operator finds on every plain object
through its `Object.prototype`, beyond the object's own keys.  The
source's guards `target.name in values` and `name in schema` both hit
these for ANY object operand. -/
def objectPrototypeKeys : List String :=
  ["constructor", "hasOwnProperty", "isPrototypeOf", "propertyIsEnumerable",
   "toLocaleString", "toString", "valueOf", "__proto__",
   "__defineGetter__", "__defineSetter__", "__lookupGetter__", "__lookupSetter__"]

/-- Property names the JS `in` operator finds on a Vue ref wrapper
object (class `RefImpl`) beyond the inherited `objectPrototypeKeys`: its
own fields and the `value` accessor of its prototype.  The expression
`target.name in values` in the source probes THIS object — `values` is
the `Ref`, not `values.value` — so an ordinary field name is never found
here. -/
def refWrapperKeys : List String :=
  ["value", "_value", "_rawValue", "dep", "__v_isRef"]

/-- The tail of `handleInputBlur` shared by both branches:
`if (name && name in schema && schema[name]) { const result =
schema[name]?.safeParse(value); errors.value[name] = ... }`.  For a name
that is not an own key of the shape but is inherited from
`Object.prototype` (e.g. `"toString"`), the guard passes — the inherited
member is truthy — and `schema[name]?.safeParse` is `undefined`, so
calling it throws a TypeError (`Except.error`). -/
def writeBlurResult (shape : Shape) (errors : ErrorsMap)
    (name : String) (value : JsValue) : Except String ErrorsMap :=
  if name ≠ "" then
    match shape.get? name with
    | some rule => .ok (errors.set name (ruleOutcome rule value))
    | none =>
        if name ∈ objectPrototypeKeys then
          .error "TypeError: schema[name]?.safeParse is not a function"
        else
          .ok errors
  else
    .ok errors

/-- Operation `handleInputBlur(e)`: resolves the trigger to a `(name, value)` pair
and validates that single field, throwing (`Except.error`, with the
source's message) on a malformed trigger.  In the event branch the raw
value is `target.name in values ? values.value[target.name] : target.value`
where `values` is the ref wrapper, whose `in`-visible names are
`refWrapperKeys` plus the inherited `objectPrototypeKeys`. -/
def handleInputBlur (shape : Shape) (values : JsObj JsValue)
    (errors : ErrorsMap) (e : Trigger) : Except String ErrorsMap :=
  match e with
  | .str s =>
      if s ≠ "" then
        writeBlurResult shape errors s (getJs values s)
      else
        .error "handleInputBlur got wrong event type"
  | .event none => .error "handleInputBlur got wrong event type"
  | .event (some target) =>
      if target.name = "" then
        .error "handleInputBlur must be used with an input that has a name attribute"
      else
        let value :=
          if target.name ∈ refWrapperKeys ∨ target.name ∈ objectPrototypeKeys then
            getJs values target.name
          else target.value
        writeBlurResult shape errors target.name value

/-- Operation `validateProperty(name, value)`: `toValue(schema)[name].safeParse(value)`
— `none` models the TypeError thrown when `name` is not in the shape
(reading `.safeParse` of `undefined`). -/
def validateProperty (shape : Shape) (errors : ErrorsMap)
    (name : String) (value : JsValue) : Option ErrorsMap :=
  match shape.get? name with
  | some rule => some (errors.set name (ruleOutcome rule value))
  | none => none

/-- Operation `overrideFieldError(name, errorValue)`. -/
def overrideFieldError (errors : ErrorsMap) (name : String)
    (errorValue : ErrVal) : ErrorsMap :=
  errors.set name errorValue

/-- Operation `clear()`: resets the errors map to empty. -/
def clear : ErrorsMap := []

/-- What `validate()` produces: the replaced `errors` state plus the
returned `{ isValid, sanitizedValues }` object. -/
structure ValidateResult where
  errors : ErrorsMap
  isValid : Bool
  sanitizedValues : JsObj JsValue
deriving Repr

/-- The loop `for (const issue of error.issues)
errors.value[issue.path.join('.')] = issue.message`, starting from the
freshly emptied errors map. -/
def issueWrites (issues : List Issue) : ErrorsMap :=
  issues.foldl
    (fun acc i => acc.set (String.intercalate "." i.path) (ErrVal.str i.message))
    []

/-- Operation `validate()`: resets `errors` to `{}`, runs
`validationSchema.safeParse(values.value)` — the ORIGINAL `z.ZodObject`,
with its unknown-keys policy — writes
`errors[issue.path.join('.')] = issue.message` for each issue on
failure, and returns `isValid` (recomputed with the truthiness
predicate) and `sanitizedValues` (`data` on success, `{}` on failure). -/
def validate (s : ZodObjectSchema) (values : JsObj JsValue) : ValidateResult :=
  match parseObject s values with
  | .ok data =>
      { errors := [], isValid := validateIsValid [], sanitizedValues := data }
  | .error issues =>
      { errors := issueWrites issues,
        isValid := validateIsValid (issueWrites issues),
        sanitizedValues := [] }

/-- Operation `getSanitizedValues()`: `z.object(toValue(schema)).safeParse(values.value)`,
returning `data` on success and `{}` on failure.  Unlike `validate()`,
this parses a REBUILT object schema made from the shape alone, so it
always uses Zod's default strip policy, whatever policy the original
`validationSchema` carried. -/
def getSanitizedValues (shape : Shape) (values : JsObj JsValue) : JsObj JsValue :=
  match parseAll shape values with
  | .ok data => data
  | .error _ => []

/-- Helper `diffKeys(obj1, obj2)`: the keys of `obj1` whose value differs from
`obj2`'s (`!==`; absent keys read as `undefined`). -/
def diffKeys (obj1 obj2 : JsObj JsValue) : List String :=
  obj1.keys.filter (fun k => getJs obj1 k ≠ getJs obj2 k)

/-- The `watch` callback installed under `onChange` mode, called with
`(newValues, oldValues)`: when `diffKeys(newValues, oldValues)` has more
than one element, every such key is run through `validateProperty`;
otherwise nothing happens.  `none` models a thrown TypeError from
`validateProperty`. -/
def onChangeCallback (shape : Shape) (errors : ErrorsMap)
    (newValues oldValues : JsObj JsValue) : Option ErrorsMap :=
  let changed := diffKeys newValues oldValues
  if changed.length > 1 then
    changed.foldlM
      (fun errs k => validateProperty shape errs k (getJs newValues k))
      errors
  else
    some errors

/-! ## Construction -/

/-- A Zod schema value, at the granularity the constructor inspects it:
either an object schema (`instanceof z.ZodObject`, carrying its shape
and unknown-keys policy) or any other kind of schema. -/
inductive ZodSchema where
  | object : ZodObjectSchema → ZodSchema
  | string : ZodSchema
  | number : ZodSchema
  | boolean : ZodSchema
  | array : ZodSchema

/-- The test `s instanceof z.ZodObject`. -/
def ZodSchema.isObjectSchema : ZodSchema → Bool
  | .object _ => true
  | _ => false

/-- The validation mode option. -/
inductive Mode where
  | onBlur
  | onChange
deriving DecidableEq, Repr

/-- A constructed validator instance: the original object schema (used
by `validate()`), the extracted shape table (used by field validation
and `getSanitizedValues()`) and the fixed mode, with `errors`
initialised to `{}`. -/
structure Validator where
  validationSchema : ZodObjectSchema
  shape : Shape
  mode : Mode
  errors : ErrorsMap

/-- The message of the `Error` thrown for a non-object schema. -/
def schemaTypeErrorMsg : String :=
  "validationSchema needs to be Zod schema, use z.object\x7b...\x7d"

/-- The composable's body up to and including construction: throws
(`Except.error`) unless the schema is a `z.ZodObject`, otherwise
extracts the shape and produces the instance. -/
def useZodFormValidator (validationSchema : ZodSchema) (mode : Mode) :
    Except String Validator :=
  match validationSchema with
  | .object s =>
      .ok { validationSchema := s, shape := s.shape, mode := mode, errors := [] }
  | _ => .error schemaTypeErrorMsg

/-! ## Concrete rules for witnesses (instances of the Zod interface) -/

/-- The rule `z.string().min(5)`, with Zod's verbatim message. -/
def stringMin5Rule : FieldRule :=
  ⟨fun v =>
    match v with
    | .str s =>
        if 5 ≤ s.length then .ok (.str s)
        else .error "String must contain at least 5 character(s)"
    | _ => .error "Expected string, received other"⟩

/-- The rule `z.string().email()`, with the shape of its check reduced to
the presence of an `@` (enough to distinguish the witnesses' inputs) and
Zod's verbatim message. -/
def emailRule : FieldRule :=
  ⟨fun v =>
    match v with
    | .str s => if s.data.contains '@' then .ok (.str s) else .error "Invalid email"
    | _ => .error "Invalid email"⟩

/-- Decimal reading of a character list, `none` when empty or any
character is not a digit. -/
def natOfDigits (cs : List Char) : Option Nat :=
  match cs with
  | [] => none
  | _ =>
      cs.foldl
        (fun acc c =>
          match acc with
          | some n => if c.isDigit then some (10 * n + (c.toNat - 48)) else none
          | none => none)
        (some 0)

/-- A number rule with declared string-to-number coercion, as in the
spec's example of a coercing schema field. -/
def coerceNumberRule : FieldRule :=
  ⟨fun v =>
    match v with
    | .num n => .ok (.num n)
    | .str s =>
        match natOfDigits s.data with
        | some n => .ok (.num (n : Int))
        | none => .error "Expected number, received string"
    | _ => .error "Expected number"⟩

/-! ## Spec-side definitions and witness data -/

/-- The validity predicate as claim C1 words it: no entry of the errors
map is a non-empty string and no entry is boolean `true` (an EMPTY
string entry is allowed).  Stated from the spec's words, for comparison
with `isValidRead` from the source. -/
def isValidPerC1 (errors : ErrorsMap) : Bool :=
  errors.values.all (fun v =>
    match v with
    | .str s => s = ""
    | .bool b => !b)

/-- The change diff as claim C2 (and spec §4.4) words it: the names
present in the PREVIOUS snapshot whose value differs from the current
one.  Stated from the spec's words, for comparison with the diff the
subscription actually computes. -/
def diffPerC2 (previous current : JsObj JsValue) : List String :=
  previous.keys.filter (fun k => getJs previous k ≠ getJs current k)

/-- The field name `handleInputBlur` resolves from a trigger when it
does not throw: a non-empty plain string, or a target's non-empty
`name`. -/
def Trigger.resolvedName : Trigger → Option String
  | .str s => if s = "" then none else some s
  | .event none => none
  | .event (some target) => if target.name = "" then none else some target.name

/-- A shape and values map for the blur witnesses: field `"email"` with
the email rule, currently holding a passing address. -/
def blurShape : Shape := [("email", emailRule)]

def blurValues : JsObj JsValue := [("email", JsValue.str "john@example.com")]

/-- A blur event on `"email"` whose own `value` diverges from the bound
value in the values map. -/
def blurEvent : Trigger :=
  Trigger.event (some { name := "email", value := JsValue.str "not-an-email" })

def blurShapeMin5 : Shape := [("name", stringMin5Rule)]

def blurValuesMin5 : JsObj JsValue := [("name", JsValue.str "John")]

/-- A two-field shape for the whole-form witnesses: a min-5 string and a
coercing number field. -/
def formShape : Shape := [("name", stringMin5Rule), ("age", coerceNumberRule)]

def formBadValues : JsObj JsValue :=
  [("name", JsValue.str "John"), ("age", JsValue.num 25)]

def formGoodValues : JsObj JsValue :=
  [("name", JsValue.str "John Doe"), ("age", JsValue.str "30")]

def formGoodSanitized : JsObj JsValue :=
  [("name", JsValue.str "John Doe"), ("age", JsValue.num 30)]

/-- The `formShape` wrapped as a default-policy (strip) `z.ZodObject`. -/
def formSchema : ZodObjectSchema := { shape := formShape, unknownKeys := .strip }

/-- A schema whose field name is the empty string — legal in JS
(`z.object({"": rule})` works) — for the C6 counterexample. -/
def emptyNameShape : Shape := [("", stringMin5Rule)]

def emptyNameValues : JsObj JsValue := [("", JsValue.str "hi")]

/-- A passthrough object schema (`z.object({name: min5}).passthrough()`)
for the C7 counterexample: still `instanceof z.ZodObject`. -/
def passthroughSchema : ZodObjectSchema :=
  { shape := [("name", stringMin5Rule)], unknownKeys := .passthrough }

/-- Values satisfying `passthroughSchema`, with one unknown key. -/
def passthroughValues : JsObj JsValue :=
  [("name", JsValue.str "Jonathan"), ("extra", JsValue.num 1)]

/-- Values for the C4 witness: two fields in the shape, both changed
between the snapshots. -/
def changeOldValues : JsObj JsValue :=
  [("name", JsValue.str "Jonathan"), ("age", JsValue.num 25)]

def changeNewValues : JsObj JsValue :=
  [("name", JsValue.str "Jon"), ("age", JsValue.num 30)]

/-! ## Claims -/

namespace JsObj

@[simp] theorem get?_set_self {α} (o : JsObj α) (k : String) (v : α) :
    (o.set k v).get? k = some v := by
  induction o with
  | nil => simp [set, get?]
  | cons p rest ih =>
      obtain ⟨k', v'⟩ := p
      by_cases h : k' = k
      · simp [set, get?, h]
      · simp [set, get?, h, ih]

theorem get?_set_ne {α} (o : JsObj α) (k k' : String) (v : α) (h : k ≠ k') :
    (o.set k v).get? k' = o.get? k' := by
  induction o with
  | nil => simp [set, get?, h]
  | cons p rest ih =>
      obtain ⟨k₀, v₀⟩ := p
      by_cases h₀ : k₀ = k
      · subst h₀
        simp [set, get?, h]
      · simp [set, get?, h₀, ih]

theorem set_ne_nil {α} (o : JsObj α) (k : String) (v : α) :
    o.set k v ≠ [] := by
  cases o with
  | nil => simp [set]
  | cons p rest =>
      obtain ⟨k', v'⟩ := p
      by_cases h : k' = k <;> simp [set, h]

theorem snd_mem_set {α} (o : JsObj α) (k : String) (v : α) (P : α → Prop)
    (ho : ∀ p ∈ o, P p.2) (hv : P v) : ∀ p ∈ o.set k v, P p.2 := by
  induction o with
  | nil =>
      intro p hp
      simp [set] at hp
      simp [hp, hv]
  | cons q rest ih =>
      obtain ⟨k', v'⟩ := q
      intro p hp
      by_cases h : k' = k
      · simp [set, h] at hp
        rcases hp with hp | hp
        · simp [hp, hv]
        · exact ho p (List.mem_cons_of_mem _ hp)
      · simp only [set, if_neg h, List.mem_cons] at hp
        rcases hp with hp | hp
        · exact ho p (by simp [hp])
        · exact ih (fun q hq => ho q (List.mem_cons_of_mem _ hq)) p hp

end JsObj

theorem findIndexIsMinusOne_iff {α} (l : List α) (p : α → Bool) :
    findIndexIsMinusOne l p = true ↔ ∀ x ∈ l, p x = false := by
  induction l with
  | nil => simp [findIndexIsMinusOne]
  | cons a rest ih =>
      by_cases h : p a
      · simp [findIndexIsMinusOne, List.findIdx?_cons, h]
      · simp [findIndexIsMinusOne, List.findIdx?_cons, h, ih]

/-- Claim C1 fails on the code: on the errors state `{a: ""}` (reachable
via `overrideFieldError("a", "")`) the derived `isValid` reads `false`
— `typeof '' === 'string'` is `true` — while the claim's condition "no
entry is a non-empty string and no entry is boolean `true`" holds. -/
theorem C1_counterexample :
    isValidRead [("a", ErrVal.str "")] = false ∧
    isValidPerC1 [("a", ErrVal.str "")] = true := by
  constructor <;> rfl

/-- C1 (amended): the derived `isValid` reads `true` iff no entry of the
errors map is a string (of any length, the empty string included) and no
entry is boolean `true` — equivalently, iff every entry is `false`. -/
theorem C1_isValid_iff_all_false (errors : ErrorsMap) :
    isValidRead errors = true ↔ ∀ p ∈ errors, p.2 = ErrVal.bool false := by
  rw [isValidRead, findIndexIsMinusOne_iff]
  constructor
  · intro h p hp
    have hv := h p.2 (List.mem_map_of_mem Prod.snd hp)
    cases hpe : p.2 with
    | bool b =>
        cases b with
        | false => rfl
        | true => rw [hpe] at hv; exact absurd hv (by decide)
    | str s => rw [hpe] at hv; exact absurd hv (by simp [ErrVal.isString])
  · intro h v hv
    simp only [JsObj.values, List.mem_map] at hv
    obtain ⟨p, hp, rfl⟩ := hv
    rw [h p hp]
    rfl

/-- Claim C2 fails on the code: the subscription calls
`diffKeys(newValues, oldValues)`, which iterates the keys of the CURRENT
snapshot.  With previous `{a: 1}` and current `{}`, the claim's set is
`{a}` (present in previous, `1 !== undefined`) but the code's diff is
empty. -/
theorem C2_counterexample :
    diffKeys ([] : JsObj JsValue) [("a", JsValue.num 1)] = [] ∧
    diffPerC2 [("a", JsValue.num 1)] ([] : JsObj JsValue) = ["a"] := by
  constructor <;> rfl

/-- C2 (amended): the diff the onChange subscription computes,
`diffKeys(newValues, oldValues)`, contains exactly the field names
present in the CURRENT (new) snapshot whose value is not equal
(reference/primitive equality) to the corresponding value in the
previous snapshot. -/
theorem C2_diff_membership (newValues oldValues : JsObj JsValue) (k : String) :
    k ∈ diffKeys newValues oldValues ↔
      k ∈ newValues.keys ∧ getJs newValues k ≠ getJs oldValues k := by
  simp [diffKeys, List.mem_filter]

/-- C9: constructing the validator with any schema that is not
object-shaped (`instanceof z.ZodObject` fails) throws the schema-type
error immediately and produces no instance. -/
theorem C9_non_object_schema_throws (s : ZodSchema) (mode : Mode)
    (h : s.isObjectSchema = false) :
    useZodFormValidator s mode = .error schemaTypeErrorMsg := by
  cases s with
  | object shape => exact absurd h (by simp [ZodSchema.isObjectSchema])
  | string => rfl
  | number => rfl
  | boolean => rfl
  | array => rfl

theorem C9_witness :
    ZodSchema.string.isObjectSchema = false ∧
    useZodFormValidator ZodSchema.string Mode.onBlur = .error schemaTypeErrorMsg :=
  ⟨rfl, C9_non_object_schema_throws ZodSchema.string Mode.onBlur rfl⟩

theorem validateIsValid_eq_isValidRead (errors : ErrorsMap) :
    validateIsValid errors = isValidRead errors := by
  have hpred : (fun v : ErrVal => v.isString || v.jsTruthy)
      = (fun v : ErrVal => v.isString || v == ErrVal.bool true) := by
    funext v
    cases v with
    | bool b => cases b <;> rfl
    | str s => rfl
  rw [validateIsValid, isValidRead, hpred]

/-- C10: the `isValid` field returned by `validate()` (computed with the
truthiness predicate `typeof value === 'string' || value`) equals the
derived `isValid` cell (computed with `typeof value === 'string' ||
value === true`) read on the errors state `validate()` leaves behind:
the two predicates agree on every `boolean | string` value. -/
theorem C10_validate_isValid_agrees (s : ZodObjectSchema) (values : JsObj JsValue) :
    (validate s values).isValid = isValidRead (validate s values).errors := by
  have hv : (validate s values).isValid
      = validateIsValid (validate s values).errors := by
    rw [validate]
    cases parseObject s values <;> rfl
  rw [hv, validateIsValid_eq_isValidRead]

/-- C3's failing input, evaluated on the code: the key `"email"` exists
in the values map and its value passes the rule, yet `handleInputBlur`
validates the event's own `value` and records `"Invalid email"` — the
source tests `target.name in values` against the ref wrapper object, not
against the values map, so the `valuesMap[name]` branch is never taken
for an ordinary field name. -/
theorem C3_event_value_used_despite_key_in_values :
    (JsObj.get? blurValues "email").isSome = true ∧
    emailRule.safeParse (getJs blurValues "email") = .ok (JsValue.str "john@example.com") ∧
    handleInputBlur blurShape blurValues [] blurEvent =
      .ok [("email", ErrVal.str "Invalid email")] := by
  refine ⟨rfl, rfl, ?_⟩
  rfl

/-- Claim C6 fails on the code at the empty-string field name: `""` is a
legal schema key and `emptyNameValues[""]` fails its min-5 rule, so the
claim demands `errors[""]` be set to the rule's message — but the empty
string is falsy, so `handleInputBlur("")` falls past both trigger
branches and throws the wrong-event error, writing nothing. -/
theorem C6_counterexample :
    (JsObj.get? emptyNameShape "").isSome = true ∧
    (stringMin5Rule.safeParse (getJs emptyNameValues "")).isOk = false ∧
    handleInputBlur emptyNameShape emptyNameValues [] (Trigger.str "") =
      .error "handleInputBlur got wrong event type" := by
  refine ⟨rfl, rfl, rfl⟩

/-- C6 (amended): for a NON-EMPTY field name carrying a rule in the
shape, `handleFieldTrigger(name)` validates the field's CURRENT value
from the values map and writes the rule's first violation message
verbatim on failure, `false` on success. -/
theorem C6_blur_writes_rule_outcome (shape : Shape) (values : JsObj JsValue)
    (errors : ErrorsMap) (name : String) (rule : FieldRule)
    (hname : name ≠ "") (hrule : shape.get? name = some rule) :
    ∃ errs, handleInputBlur shape values errors (Trigger.str name) = .ok errs ∧
      errs.get? name = some
        (match rule.safeParse (getJs values name) with
         | .error msg => ErrVal.str msg
         | .ok _ => ErrVal.bool false) := by
  refine ⟨errors.set name (ruleOutcome rule (getJs values name)), ?_, ?_⟩
  · simp [handleInputBlur, hname, writeBlurResult, hrule]
  · rw [JsObj.get?_set_self]
    rfl

theorem C6_witness :
    ("name" ≠ "") ∧
    ∃ errs, handleInputBlur blurShapeMin5 blurValuesMin5 [] (Trigger.str "name") = .ok errs ∧
      errs.get? "name" = some
        (match stringMin5Rule.safeParse (getJs blurValuesMin5 "name") with
         | .error msg => ErrVal.str msg
         | .ok _ => ErrVal.bool false) :=
  ⟨by decide,
   C6_blur_writes_rule_outcome blurShapeMin5 blurValuesMin5 [] "name" stringMin5Rule
     (by decide) rfl⟩

/-- Claim C8 fails on the code: `"toString"` is not present in the
schema shape, yet `handleInputBlur("toString")` is not a silent no-op —
the JS `in` operator finds the inherited `Object.prototype.toString`, so
the guard `name && name in schema && schema[name]` passes, and
`schema["toString"]?.safeParse(value)` throws a TypeError because the
inherited function has no `safeParse`. -/
theorem C8_counterexample :
    (Trigger.resolvedName (Trigger.str "toString") = some "toString") ∧
    (JsObj.get? blurShape "toString" = none) ∧
    handleInputBlur blurShape blurValues [] (Trigger.str "toString") =
      .error "TypeError: schema[name]?.safeParse is not a function" := by
  refine ⟨rfl, rfl, rfl⟩

/-- C8 (amended): a trigger that resolves (without throwing) to a field
name absent from the schema shape AND not among the member names
inherited from `Object.prototype` is silently ignored: `handleInputBlur`
returns normally and the errors map is unchanged. -/
theorem C8_unknown_field_noop (shape : Shape) (values : JsObj JsValue)
    (errors : ErrorsMap) (t : Trigger) (name : String)
    (hres : t.resolvedName = some name)
    (hnot : shape.get? name = none)
    (hproto : name ∉ objectPrototypeKeys) :
    handleInputBlur shape values errors t = .ok errors := by
  cases t with
  | str s =>
      rw [Trigger.resolvedName] at hres
      by_cases hs : s = ""
      · rw [if_pos hs] at hres; exact absurd hres (by simp)
      · rw [if_neg hs] at hres
        have hsn : s = name := Option.some_injective _ hres
        subst hsn
        simp [handleInputBlur, hs, writeBlurResult, hnot, hproto]
  | event target =>
      cases target with
      | none => exact absurd hres (by simp [Trigger.resolvedName])
      | some tgt =>
          rw [Trigger.resolvedName] at hres
          by_cases hn : tgt.name = ""
          · rw [if_pos hn] at hres; exact absurd hres (by simp)
          · rw [if_neg hn] at hres
            have hsn : tgt.name = name := Option.some_injective _ hres
            subst hsn
            simp [handleInputBlur, hn, writeBlurResult, hnot, hproto]

theorem C8_witness :
    (Trigger.resolvedName (Trigger.str "nickname") = some "nickname") ∧
    (JsObj.get? blurShape "nickname" = none) ∧
    ("nickname" ∉ objectPrototypeKeys) ∧
    handleInputBlur blurShape blurValues [("email", ErrVal.bool false)]
        (Trigger.str "nickname") = .ok [("email", ErrVal.bool false)] :=
  ⟨rfl, rfl, by decide,
   C8_unknown_field_noop blurShape blurValues [("email", ErrVal.bool false)]
     (Trigger.str "nickname") "nickname" rfl rfl (by decide)⟩

theorem parseAll_error_ne_nil (shape : Shape) (values : JsObj JsValue)
    (issues : List Issue) (h : parseAll shape values = .error issues) :
    issues ≠ [] := by
  rw [parseAll] at h
  by_cases he : (issuesOf shape values).isEmpty
  · rw [if_pos he] at h
    exact absurd h (by simp)
  · rw [if_neg he] at h
    have : issuesOf shape values = issues := by
      injection h
    intro hnil
    rw [this, hnil] at he
    exact he rfl

theorem parseAll_error_issues (shape : Shape) (values : JsObj JsValue)
    (issues : List Issue) (h : parseAll shape values = .error issues) :
    issuesOf shape values = issues := by
  rw [parseAll] at h
  by_cases he : (issuesOf shape values).isEmpty
  · rw [if_pos he] at h
    exact absurd h (by simp)
  · rw [if_neg he] at h
    injection h

/-- The fold of `validate()`'s issue loop writes only string entries. -/
theorem issueFold_all_str (issues : List Issue) (acc : ErrorsMap)
    (hacc : ∀ p ∈ acc, (p.2).isString = true) :
    ∀ p ∈ issues.foldl
        (fun a i => a.set (String.intercalate "." i.path) (ErrVal.str i.message))
        acc,
      (p.2).isString = true := by
  induction issues generalizing acc with
  | nil => exact hacc
  | cons i rest ih =>
      exact ih _
        (JsObj.snd_mem_set acc _ _ (fun v : ErrVal => v.isString = true) hacc rfl)

/-- The fold of `validate()`'s issue loop never empties the map. -/
theorem issueFold_ne_nil (issues : List Issue) (acc : ErrorsMap)
    (hacc : acc ≠ []) :
    issues.foldl
        (fun a i => a.set (String.intercalate "." i.path) (ErrVal.str i.message))
        acc ≠ [] := by
  induction issues generalizing acc with
  | nil => exact hacc
  | cons i rest ih => exact ih _ (JsObj.set_ne_nil acc _ _)

/-- A map with a string entry is not valid under `validate()`'s
predicate. -/
theorem validateIsValid_false_of_str (errors : ErrorsMap) (p : String × ErrVal)
    (hp : p ∈ errors) (hstr : (p.2).isString = true) :
    validateIsValid errors = false := by
  cases hfi : validateIsValid errors with
  | false => rfl
  | true =>
      rw [validateIsValid, findIndexIsMinusOne_iff] at hfi
      have := hfi p.2 (List.mem_map_of_mem Prod.snd hp)
      rw [hstr] at this
      exact absurd this (by simp)

/-- A failed parse of the original object schema, whatever its
unknown-keys policy, carries at least one issue. -/
theorem parseObject_error_ne_nil (s : ZodObjectSchema) (values : JsObj JsValue)
    (issues : List Issue) (h : parseObject s values = .error issues) :
    issues ≠ [] := by
  obtain ⟨shape, pol⟩ := s
  cases pol with
  | strip => exact parseAll_error_ne_nil shape values issues h
  | passthrough =>
      rw [parseObject] at h
      cases hp : parseAll shape values with
      | error issues0 =>
          rw [hp] at h
          have : issues0 = issues := by injection h
          exact this ▸ parseAll_error_ne_nil shape values issues0 hp
      | ok data =>
          rw [hp] at h
          exact absurd h (by simp)
  | strict =>
      rw [parseObject] at h
      cases hp : parseAll shape values with
      | error issues0 =>
          rw [hp] at h
          have h0 : issues0 ≠ [] := parseAll_error_ne_nil shape values issues0 hp
          have : (if (values.keys.filter (fun k => !(shape.hasKey k))).isEmpty
                  then issues0
                  else issues0 ++ [unrecognizedKeysIssue
                    (values.keys.filter (fun k => !(shape.hasKey k)))]) = issues := by
            injection h
          rw [← this]
          by_cases he : (values.keys.filter (fun k => !(shape.hasKey k))).isEmpty
          · rw [if_pos he]; exact h0
          · rw [if_neg he]; simp
      | ok data =>
          rw [hp] at h
          have h' : (if (values.keys.filter (fun k => !(shape.hasKey k))).isEmpty
              then (Except.ok data : Except (List Issue) (JsObj JsValue))
              else Except.error [unrecognizedKeysIssue
                (values.keys.filter (fun k => !(shape.hasKey k)))])
              = Except.error issues := h
          by_cases he : (values.keys.filter (fun k => !(shape.hasKey k))).isEmpty
          · rw [if_pos he] at h'
            exact absurd h' (by simp)
          · rw [if_neg he] at h'
            have : [unrecognizedKeysIssue
                (values.keys.filter (fun k => !(shape.hasKey k)))] = issues := by
              injection h'
            rw [← this]
            simp

/-- C5: `validate()` returns `isValid = false` and `sanitizedValues = {}`
when the values fail the schema's whole-object parse, and returns
`isValid = true` with `sanitizedValues` equal to the parse's coerced
`data` when the values fully satisfy the schema. -/
theorem C5_validate_outcomes (s : ZodObjectSchema) (values : JsObj JsValue) :
    (∀ issues, parseObject s values = .error issues →
      (validate s values).isValid = false ∧
      (validate s values).sanitizedValues = []) ∧
    (∀ data, parseObject s values = .ok data →
      (validate s values).isValid = true ∧
      (validate s values).sanitizedValues = data) := by
  constructor
  · intro issues h
    have hne : issues ≠ [] := parseObject_error_ne_nil s values issues h
    have hval : validate s values =
        { errors := issueWrites issues,
          isValid := validateIsValid (issueWrites issues),
          sanitizedValues := [] } := by
      rw [validate, h]
    rw [hval]
    refine ⟨?_, rfl⟩
    show validateIsValid (issueWrites issues) = false
    obtain ⟨q, hq⟩ : ∃ q, q ∈ issueWrites issues := by
      cases hw : issueWrites issues with
      | nil =>
          cases issues with
          | nil => exact absurd rfl hne
          | cons i rest =>
              have hwne : issueWrites (i :: rest) ≠ [] :=
                issueFold_ne_nil rest _ (JsObj.set_ne_nil [] _ _)
              exact absurd hw hwne
      | cons q rest => exact ⟨q, by simp⟩
    exact validateIsValid_false_of_str _ q hq
      (issueFold_all_str issues [] (by simp) q hq)
  · intro data h
    have hval : validate s values =
        { errors := [], isValid := validateIsValid [], sanitizedValues := data } := by
      rw [validate, h]
    rw [hval]
    exact ⟨rfl, rfl⟩

theorem C5_witness :
    ((validate formSchema formBadValues).isValid = false ∧
     (validate formSchema formBadValues).sanitizedValues = []) ∧
    ((validate formSchema formGoodValues).isValid = true ∧
     (validate formSchema formGoodValues).sanitizedValues = formGoodSanitized) :=
  ⟨(C5_validate_outcomes formSchema formBadValues).1
      [{ path := ["name"], message := "String must contain at least 5 character(s)" }]
      rfl,
   (C5_validate_outcomes formSchema formGoodValues).2 formGoodSanitized rfl⟩

/-- Claim C7 fails on the code: `validate()` parses the ORIGINAL
`z.ZodObject` (honouring its unknown-keys policy) while
`getSanitizedValues()` parses a rebuilt default-policy `z.object(shape)`.
A passthrough schema is `instanceof z.ZodObject` and `passthroughValues`
fully satisfies it, yet `validate().sanitizedValues` keeps the unknown
key `"extra"` and `getSanitizedValues()` strips it. -/
theorem C7_counterexample :
    parseObject passthroughSchema passthroughValues =
      .ok [("name", JsValue.str "Jonathan"), ("extra", JsValue.num 1)] ∧
    (validate passthroughSchema passthroughValues).sanitizedValues =
      [("name", JsValue.str "Jonathan"), ("extra", JsValue.num 1)] ∧
    getSanitizedValues passthroughSchema.shape passthroughValues =
      [("name", JsValue.str "Jonathan")] ∧
    getSanitizedValues passthroughSchema.shape passthroughValues ≠
      (validate passthroughSchema passthroughValues).sanitizedValues := by
  refine ⟨rfl, rfl, rfl, by decide⟩

/-- C7 (amended): on a values map that already satisfies the schema,
PROVIDED the object schema uses Zod's default unknown-keys handling
(strip), `getSanitizedValues()` returns the same object as the
`sanitizedValues` field of a `validate()` call on the same input — both
are the parse's coerced `data`. -/
theorem C7_sanitize_roundtrip (s : ZodObjectSchema) (values : JsObj JsValue)
    (data : JsObj JsValue) (hpolicy : s.unknownKeys = UnknownKeysPolicy.strip)
    (h : parseObject s values = .ok data) :
    getSanitizedValues s.shape values = (validate s values).sanitizedValues ∧
    getSanitizedValues s.shape values = data := by
  obtain ⟨shape, pol⟩ := s
  cases pol with
  | strip =>
      have h' : parseAll shape values = .ok data := h
      have hval : validate ⟨shape, .strip⟩ values =
          { errors := [], isValid := validateIsValid [], sanitizedValues := data } := by
        rw [validate, h]
      rw [hval, getSanitizedValues, h']
      exact ⟨rfl, rfl⟩
  | passthrough => exact absurd hpolicy (by simp)
  | strict => exact absurd hpolicy (by simp)

theorem C7_witness :
    formSchema.unknownKeys = UnknownKeysPolicy.strip ∧
    (getSanitizedValues formSchema.shape formGoodValues =
       (validate formSchema formGoodValues).sanitizedValues ∧
     getSanitizedValues formSchema.shape formGoodValues = formGoodSanitized) :=
  ⟨rfl, C7_sanitize_roundtrip formSchema formGoodValues formGoodSanitized rfl rfl⟩

/-- The loop of the onChange subscription: folding `validateProperty`
over a list of changed keys succeeds when every key has a rule, writes
each key's rule outcome, and leaves every other key's entry alone. -/
theorem validatePropertyFold_spec (shape : Shape) (newValues : JsObj JsValue)
    (changed : List String) (errors : ErrorsMap)
    (h : ∀ k ∈ changed, (shape.get? k).isSome) :
    ∃ errs,
      changed.foldlM
          (fun errs k => validateProperty shape errs k (getJs newValues k))
          errors = some errs ∧
      (∀ k rule, k ∈ changed → shape.get? k = some rule →
          errs.get? k = some (ruleOutcome rule (getJs newValues k))) ∧
      (∀ k, k ∉ changed → errs.get? k = errors.get? k) := by
  induction changed generalizing errors with
  | nil =>
      refine ⟨errors, rfl, ?_, fun _ _ => rfl⟩
      intro k rule hk
      exact absurd hk (List.not_mem_nil k)
  | cons a rest ih =>
      obtain ⟨ruleA, hra⟩ := Option.isSome_iff_exists.mp (h a (by simp))
      have hstep : validateProperty shape errors a (getJs newValues a)
          = some (errors.set a (ruleOutcome ruleA (getJs newValues a))) := by
        rw [validateProperty, hra]
      obtain ⟨errs, hfold, hmem, hframe⟩ :=
        ih (errors.set a (ruleOutcome ruleA (getJs newValues a)))
          (fun k hk => h k (List.mem_cons_of_mem a hk))
      refine ⟨errs, ?_, ?_, ?_⟩
      · rw [List.foldlM_cons, hstep]
        exact hfold
      · intro k rule hk hrule
        rcases List.mem_cons.mp hk with rfl | hk'
        · by_cases hmem' : k ∈ rest
          · exact hmem k rule hmem' hrule
          · rw [hframe k hmem', JsObj.get?_set_self]
            rw [hra] at hrule
            rw [Option.some_injective _ hrule]
        · exact hmem k rule hk' hrule
      · intro k hk
        have hka : a ≠ k := fun hak => hk (by rw [← hak]; simp)
        have hkr : k ∉ rest := fun hkr => hk (List.mem_cons_of_mem a hkr)
        rw [hframe k hkr, JsObj.get?_set_ne errors a k _ hka]

/-- C4: under onChange mode, a values-map update with at most one
changed field triggers no auto-validation (the subscription leaves the
errors map untouched); an update with two or more changed fields runs
each changed field through its rule and updates its errors entry (and no
other entry). -/
theorem C4_onChange_threshold (shape : Shape) (errors : ErrorsMap)
    (newValues oldValues : JsObj JsValue)
    (hrules : ∀ k ∈ diffKeys newValues oldValues, (shape.get? k).isSome) :
    ((diffKeys newValues oldValues).length ≤ 1 →
      onChangeCallback shape errors newValues oldValues = some errors) ∧
    (1 < (diffKeys newValues oldValues).length →
      ∃ errs, onChangeCallback shape errors newValues oldValues = some errs ∧
        (∀ k rule, k ∈ diffKeys newValues oldValues → shape.get? k = some rule →
            errs.get? k = some (ruleOutcome rule (getJs newValues k))) ∧
        (∀ k, k ∉ diffKeys newValues oldValues →
            errs.get? k = errors.get? k)) := by
  constructor
  · intro hle
    rw [onChangeCallback, if_neg (by omega)]
  · intro hgt
    obtain ⟨errs, hfold, hmem, hframe⟩ :=
      validatePropertyFold_spec shape newValues (diffKeys newValues oldValues)
        errors hrules
    refine ⟨errs, ?_, hmem, hframe⟩
    rw [onChangeCallback, if_pos (by omega)]
    exact hfold

theorem C4_witness :
    (∀ k ∈ diffKeys changeNewValues changeOldValues,
        (JsObj.get? formShape k).isSome) ∧
    ((diffKeys changeNewValues changeOldValues).length ≤ 1 →
      onChangeCallback formShape [] changeNewValues changeOldValues = some []) ∧
    (1 < (diffKeys changeNewValues changeOldValues).length →
      ∃ errs, onChangeCallback formShape [] changeNewValues changeOldValues
          = some errs ∧
        (∀ k rule, k ∈ diffKeys changeNewValues changeOldValues →
            JsObj.get? formShape k = some rule →
            errs.get? k = some (ruleOutcome rule (getJs changeNewValues k))) ∧
        (∀ k, k ∉ diffKeys changeNewValues changeOldValues →
            errs.get? k = JsObj.get? ([] : ErrorsMap) k)) :=
  ⟨by intro k hk
      fin_cases hk <;> rfl,
   (C4_onChange_threshold formShape [] changeNewValues changeOldValues
      (by intro k hk; fin_cases hk <;> rfl)).1,
   (C4_onChange_threshold formShape [] changeNewValues changeOldValues
      (by intro k hk; fin_cases hk <;> rfl)).2⟩

end ZodForm
